import Mathlib

/-!
Verification of the Product Review Sentiment Scraper against its
natural-language specification.

The repository ships the Next.js frontend (`frontend/app/page.js`) and the
project README.  The FastAPI backend source is not part of the repository
snapshot, so backend components (Product Identifier Resolver, Review Source
Client, Sentiment Scorer, Persistence Sink) are modelled from the
specification text; frontend components are embedded from `page.js` directly.
-/

/-! ## Data model (spec section 3) -/

/-- The three sentiment label values of the data model. -/
inductive SentimentLabel where
  | Positive
  | Negative
  | Neutral
deriving DecidableEq, BEq, Repr

/-- Canonical enriched review record, spec section 3 (`Review`).
Numbers are modelled as rationals. -/
structure Review where
  product_name : String
  review_text : String
  rating : ℚ
  sentiment_label : SentimentLabel
  sentiment_score : ℚ
deriving DecidableEq, Repr

/-- The JavaScript property key a `sentiment_label` value carries in the
backend JSON / frontend objects. -/
def labelKey : SentimentLabel → String
  | .Positive => "Positive"
  | .Negative => "Negative"
  | .Neutral => "Neutral"

/-! ## Frontend aggregation (`sentimentCounts` in `frontend/app/page.js`)

The JS accumulator is an object; property insertion order is observable
(`Object.keys` / `Object.values` feed the charts), so the object is embedded
as an association list from string keys to counts. -/

/-- The initial accumulator object of the reduction in `page.js`:
`\x7b Positive: 0, Negative: 0, Neutral: 0 \x7d`. -/
def initialCounts : List (String × Nat) :=
  [("Positive", 0), ("Negative", 0), ("Neutral", 0)]

/-- One step of the JS reduction body
`acc[review.sentiment_label] = (acc[review.sentiment_label] || 0) + 1`:
an existing property is updated in place, a missing one is appended with
count 1 (JS adds new properties at the end of insertion order). -/
def updateCount : List (String × Nat) → String → List (String × Nat)
  | [], k => [(k, 1)]
  | (k', v) :: rest, k =>
    if k = k' then (k', v + 1) :: rest else (k', v) :: updateCount rest k

/-- The `sentimentCounts` `useMemo` reduction of `frontend/app/page.js`
(lines 34-45): for an empty review list it returns the literal zero object,
otherwise it folds `updateCount` over the reviews starting from the zero
object. -/
def sentimentCounts (reviews : List Review) : List (String × Nat) :=
  if reviews.length = 0 then initialCounts
  else reviews.foldl (fun acc r => updateCount acc (labelKey r.sentiment_label)) initialCounts

/-- Reading a count out of the accumulator object (JS property access with a
missing property read as 0). -/
def getCount (counts : List (String × Nat)) (k : String) : Nat :=
  match counts.lookup k with
  | some v => v
  | none => 0

/-! ### Helper lemmas about the aggregation -/

theorem updateCount_positive (a b c : Nat) :
    updateCount [("Positive", a), ("Negative", b), ("Neutral", c)] "Positive" =
      [("Positive", a + 1), ("Negative", b), ("Neutral", c)] := by
  simp [updateCount]

theorem updateCount_negative (a b c : Nat) :
    updateCount [("Positive", a), ("Negative", b), ("Neutral", c)] "Negative" =
      [("Positive", a), ("Negative", b + 1), ("Neutral", c)] := by
  simp [updateCount]

theorem updateCount_neutral (a b c : Nat) :
    updateCount [("Positive", a), ("Negative", b), ("Neutral", c)] "Neutral" =
      [("Positive", a), ("Negative", b), ("Neutral", c + 1)] := by
  simp [updateCount]

/-- Shape-and-value lemma for the fold underlying `sentimentCounts`:
starting from any three-key accumulator, the fold adds to each key exactly
the number of reviews carrying that label. -/
theorem sentimentFold (rs : List Review) (a b c : Nat) :
    rs.foldl (fun acc r => updateCount acc (labelKey r.sentiment_label))
      [("Positive", a), ("Negative", b), ("Neutral", c)] =
    [("Positive", a + rs.countP (fun r => decide (r.sentiment_label = SentimentLabel.Positive))),
     ("Negative", b + rs.countP (fun r => decide (r.sentiment_label = SentimentLabel.Negative))),
     ("Neutral", c + rs.countP (fun r => decide (r.sentiment_label = SentimentLabel.Neutral)))] := by
  induction rs generalizing a b c with
  | nil => simp
  | cons r rs ih =>
    simp only [List.foldl_cons]
    cases h : r.sentiment_label with
    | Positive =>
      rw [show labelKey SentimentLabel.Positive = "Positive" from rfl,
        updateCount_positive, ih]
      simp [List.countP_cons, h]
      omega
    | Negative =>
      rw [show labelKey SentimentLabel.Negative = "Negative" from rfl,
        updateCount_negative, ih]
      simp [List.countP_cons, h]
      omega
    | Neutral =>
      rw [show labelKey SentimentLabel.Neutral = "Neutral" from rfl,
        updateCount_neutral, ih]
      simp [List.countP_cons, h]
      omega

/-- Each review carries exactly one of the three labels, so the three
per-label counts of any review list sum to its length. -/
theorem countP_labels_sum (rs : List Review) :
    rs.countP (fun r => decide (r.sentiment_label = SentimentLabel.Positive)) +
    rs.countP (fun r => decide (r.sentiment_label = SentimentLabel.Negative)) +
    rs.countP (fun r => decide (r.sentiment_label = SentimentLabel.Neutral)) = rs.length := by
  induction rs with
  | nil => rfl
  | cons r rs ih =>
    cases h : r.sentiment_label <;> simp [List.countP_cons, h] <;> omega

/-- Closed form of `sentimentCounts`. -/
theorem sentimentCounts_eq (rs : List Review) :
    sentimentCounts rs =
    [("Positive", rs.countP (fun r => decide (r.sentiment_label = SentimentLabel.Positive))),
     ("Negative", rs.countP (fun r => decide (r.sentiment_label = SentimentLabel.Negative))),
     ("Neutral", rs.countP (fun r => decide (r.sentiment_label = SentimentLabel.Neutral)))] := by
  cases rs with
  | nil => rfl
  | cons r rs =>
    rw [sentimentCounts]
    simp only [List.length_cons, Nat.succ_ne_zero, if_false]
    rw [show initialCounts = [("Positive", 0), ("Negative", 0), ("Neutral", 0)] from rfl,
      sentimentFold]
    simp

/-! ### Claims C1, C2, C3 -/

/-- C1: for every sequence of Review records, the aggregation into
SentimentCounts computed by the frontend's `sentimentCounts` reduction yields
three per-label counts whose sum equals the length of the sequence, and each
label's count is exactly one per matching review. -/
theorem sentimentCounts_sum_length (rs : List Review) :
    getCount (sentimentCounts rs) "Positive" + getCount (sentimentCounts rs) "Negative" +
      getCount (sentimentCounts rs) "Neutral" = rs.length ∧
    ∀ l : SentimentLabel,
      getCount (sentimentCounts rs) (labelKey l) =
        rs.countP (fun r => decide (r.sentiment_label = l)) := by
  rw [sentimentCounts_eq]
  constructor
  · simp [getCount, List.lookup]
    exact countP_labels_sum rs
  · intro l
    cases l <;> simp [getCount, List.lookup, labelKey]

/-- C2: aggregation over the empty sequence of reviews returns exactly
the object with Positive, Negative and Neutral all zero. -/
theorem sentimentCounts_nil :
    sentimentCounts [] = [("Positive", 0), ("Negative", 0), ("Neutral", 0)] := rfl

/-- C3: for every sequence of Review records, the produced SentimentCounts
object contains all three keys Positive, Negative and Neutral - each mapped
to a (necessarily non-negative) count - even when a count is zero, and no
other keys. -/
theorem sentimentCounts_allKeys (rs : List Review) :
    ∃ p n m : Nat,
      sentimentCounts rs = [("Positive", p), ("Negative", n), ("Neutral", m)] := by
  exact ⟨_, _, _, sentimentCounts_eq rs⟩

/-! ## Sentiment Scorer thresholding (spec section 4.4)

The backend (FastAPI) source is not part of the repository snapshot, so the
scorer's labelling rule is modelled from the specification. -/

/-- Modelled from the spec: the Sentiment Scorer's thresholding rule
(backend `app/main.py` is missing from the snapshot): score > +0.1 gives
Positive, score < -0.1 gives Negative, otherwise Neutral.  Scores are
modelled as rationals in place of floats. -/
def scoreLabel (score : ℚ) : SentimentLabel :=
  if score > 1/10 then SentimentLabel.Positive
  else if score < -(1/10) then SentimentLabel.Negative
  else SentimentLabel.Neutral

/-- C4: for any score, the Scorer's label is Positive iff the score exceeds
0.1, Negative iff it is below -0.1, and Neutral exactly on the closed
dead-band [-0.1, 0.1]; the three cases are exhaustive and mutually exclusive
since `scoreLabel` is total and the three characterising conditions
partition the rationals. -/
theorem scoreLabel_iff (s : ℚ) :
    (scoreLabel s = SentimentLabel.Positive ↔ s > 1/10) ∧
    (scoreLabel s = SentimentLabel.Negative ↔ s < -(1/10)) ∧
    (scoreLabel s = SentimentLabel.Neutral ↔ -(1/10) ≤ s ∧ s ≤ 1/10) := by
  unfold scoreLabel
  split_ifs with h1 h2
  · refine ⟨iff_of_true rfl h1, ?_, ?_⟩
    · simp only [reduceCtorEq, false_iff]
      intro h
      linarith
    · simp only [reduceCtorEq, false_iff]
      rintro ⟨ha, hb⟩
      linarith
  · refine ⟨?_, iff_of_true rfl h2, ?_⟩
    · simp only [reduceCtorEq, false_iff]
      intro h
      linarith
    · simp only [reduceCtorEq, false_iff]
      rintro ⟨ha, hb⟩
      linarith
  · refine ⟨?_, ?_, ?_⟩
    · simpa using h1
    · simpa using h2
    · simp only [true_iff]
      exact ⟨by linarith, by linarith⟩

/-! ## Pie-chart tooltip percentage (`commonChartOptions` in `page.js`)

The tooltip label callback computes
`totalReviews > 0 ? ((value / totalReviews) * 100).toFixed(1) : 0`.
Division is embedded as a fallible operation so that "never divides by
zero" is a provable statement: `jsDiv` returns `none` exactly when its
divisor is zero, and the guard in `tooltipPercentage` keeps that branch
unreachable. -/

/-- Division as a fallible operation: `none` exactly on a zero divisor. -/
def jsDiv (a b : ℚ) : Option ℚ :=
  if b = 0 then none else some (a / b)

/-- The pie-segment percentage computed by the tooltip callback of
`commonChartOptions` (`frontend/app/page.js` lines 148-164), with
`totalReviews = reviews.length`.  Display rounding (`toFixed(1)`) is not
modelled; the value is exact. -/
def tooltipPercentage (value : ℚ) (totalReviews : Nat) : Option ℚ :=
  if totalReviews > 0 then (jsDiv value (totalReviews : ℚ)).map (fun q => q * 100)
  else some 0

/-- C10: the tooltip percentage computation never divides by zero - it
always produces a value (`some`), equal to 0 when the total review count is
zero and to value / total * 100 otherwise. -/
theorem tooltipPercentage_total (v : ℚ) (t : Nat) :
    tooltipPercentage v t = some (if t = 0 then 0 else v / (t : ℚ) * 100) := by
  unfold tooltipPercentage jsDiv
  rcases Nat.eq_zero_or_pos t with h | h
  · subst h
    simp
  · have ht : t ≠ 0 := Nat.pos_iff_ne_zero.mp h
    have htq : (t : ℚ) ≠ 0 := Nat.cast_ne_zero.mpr ht
    simp [h, ht, htq]

/-! ## The frontend scrape handler (`handleScrape` in `page.js`)

`handleScrape` is an async React event handler; it is embedded as a pure
transition on the relevant component state (`reviews`, `isLoading`,
`error`, `sheetUrl`), parameterised by the product URL and by the outcome
of the `fetch` call. -/

/-- Frontend component state touched by `handleScrape`. -/
structure UIState where
  reviews : List Review
  isLoading : Bool
  error : Option String
  sheetUrl : String
deriving DecidableEq, Repr

/-- Outcome of `await fetch(...)` plus `await response.json()` as observed
by `handleScrape`: either some step threw (network failure, JSON parse
failure), or a response arrived with an ok-flag, status code and parsed
body fields (absent JSON fields are `none`). -/
inductive ScrapeOutcome where
  | thrown (message : String)
  | replied (ok : Bool) (status : Nat) (detail : Option String)
      (data : Option (List Review)) (sheet_url : Option String)
deriving DecidableEq, Repr

/-- JS string defaulting `a || b`: an absent or empty (falsy) string is
replaced by the default. -/
def jsOrElse : Option String → String → String
  | some s, dflt => if s = "" then dflt else s
  | none, dflt => dflt

/-- Error message shown when an ok response carries no review data. -/
def noReviewsMessage : String :=
  "No reviews were returned. The product might have no reviews, or scraper selectors need an update."

/-- Error message for a blank product URL. -/
def emptyUrlMessage : String := "Please enter a product URL."

/-- Fallback message of the catch block. -/
def unexpectedErrorMessage : String := "An unexpected error occurred."

/-- JS `String.prototype.trim()`: strip leading and trailing whitespace.
Embedded over the character list so that it evaluates by kernel reduction. -/
def trimWs (s : String) : String :=
  String.mk (((s.data.dropWhile Char.isWhitespace).reverse.dropWhile Char.isWhitespace).reverse)

/-- The `handleScrape` handler of `frontend/app/page.js` (lines 47-80):
a blank (trimmed) URL only sets an error; otherwise the handler clears
`reviews`, `error` and `sheetUrl` and sets `isLoading` before the request,
then settles according to the fetch outcome: a thrown error or a non-ok
response stores an error message and empties `reviews`; an ok response
stores `data` (defaulted to empty) and `sheet_url` (defaulted to ""), and
additionally sets the no-reviews error message when the stored data is
empty.  `isLoading` is reset in the `finally` block. -/
def handleScrape (s : UIState) (productUrl : String) (outcome : ScrapeOutcome) : UIState :=
  if trimWs productUrl = "" then
    { s with error := some emptyUrlMessage }
  else
    let cleared : UIState := { reviews := [], isLoading := true, error := none, sheetUrl := "" }
    let settled : UIState :=
      match outcome with
      | ScrapeOutcome.thrown msg =>
          { cleared with
              error := some (jsOrElse (some msg) unexpectedErrorMessage), reviews := [] }
      | ScrapeOutcome.replied ok status detail data sheet_url =>
          if ok then
            let rvs := data.getD []
            let stored := { cleared with reviews := rvs, sheetUrl := sheet_url.getD "" }
            if rvs.isEmpty then { stored with error := some noReviewsMessage } else stored
          else
            let msg := jsOrElse detail ("HTTP error! Status: " ++ toString status)
            { cleared with
                error := some (jsOrElse (some msg) unexpectedErrorMessage), reviews := [] }
    { settled with isLoading := false }

/-- C8: whenever `handleScrape` issues a request (non-blank URL), the prior
displayed state is cleared first - the final state does not depend on the
previous state at all - and on any request failure (thrown error or non-ok
response) the displayed review list ends up empty, so no review data from a
prior invocation survives a failed scrape. -/
theorem handleScrape_failure_no_stale (s s' : UIState) (url : String)
    (outcome : ScrapeOutcome) (hurl : trimWs url ≠ "")
    (hfail : (∃ m, outcome = ScrapeOutcome.thrown m) ∨
      ∃ st d da su, outcome = ScrapeOutcome.replied false st d da su) :
    (handleScrape s url outcome).reviews = [] ∧
      handleScrape s url outcome = handleScrape s' url outcome := by
  constructor
  · rcases hfail with ⟨m, rfl⟩ | ⟨st, d, da, su, rfl⟩ <;> simp [handleScrape, hurl]
  · simp [handleScrape, hurl]

/-- Witness for C8 at a concrete prior state holding one review, URL "u"
and a thrown fetch error. -/
theorem handleScrape_failure_no_stale_witness :
    (trimWs "u" ≠ "") ∧
      (handleScrape
          { reviews := [{ product_name := "p", review_text := "great", rating := 5,
                          sentiment_label := SentimentLabel.Positive, sentiment_score := 1/2 }],
            isLoading := false, error := none, sheetUrl := "" }
          "u" (ScrapeOutcome.thrown "boom")).reviews = [] := by
  refine ⟨by decide, ?_⟩
  exact (handleScrape_failure_no_stale _
    { reviews := [], isLoading := false, error := none, sheetUrl := "" }
    "u" (ScrapeOutcome.thrown "boom") (by decide) (Or.inl ⟨"boom", rfl⟩)).1

/-- C9: when the response is ok but the data array is missing or empty, the
handler sets the no-reviews error message even though the request
succeeded, while still storing the returned sheet URL and an empty review
list. -/
theorem handleScrape_emptyData_sets_error (s : UIState) (url : String) (st : Nat)
    (detail : Option String) (data : Option (List Review)) (su : Option String)
    (hurl : trimWs url ≠ "") (hdata : data.getD [] = []) :
    (handleScrape s url (ScrapeOutcome.replied true st detail data su)).error =
        some noReviewsMessage ∧
      (handleScrape s url (ScrapeOutcome.replied true st detail data su)).sheetUrl =
        su.getD "" ∧
      (handleScrape s url (ScrapeOutcome.replied true st detail data su)).reviews = [] := by
  simp [handleScrape, hurl, hdata]

/-- Witness for C9: ok response with absent data and a sheet URL. -/
theorem handleScrape_emptyData_sets_error_witness :
    (trimWs "u" ≠ "") ∧ ((none : Option (List Review)).getD [] = []) ∧
      (handleScrape { reviews := [], isLoading := false, error := none, sheetUrl := "" }
          "u" (ScrapeOutcome.replied true 200 none none (some "sheet"))).error =
        some noReviewsMessage := by
  refine ⟨by decide, rfl, ?_⟩
  exact (handleScrape_emptyData_sets_error
    { reviews := [], isLoading := false, error := none, sheetUrl := "" }
    "u" 200 none none (some "sheet") (by decide) rfl).1

/-! ## Review Source Client pagination (spec section 4.3)

The backend source is missing from the snapshot; the pagination loop is
modelled from the specification. -/

/-- Modelled from the spec: upstream-native shape of one review (text and
numeric rating) before normalization. -/
structure RawReview where
  text : String
  rating : ℚ
deriving DecidableEq, Repr

/-- Modelled from the spec: one page returned by the upstream
review-listing endpoint - zero or more raw entries plus the signal of
whether more pages exist. -/
structure ReviewPage where
  entries : List RawReview
  hasMore : Bool

/-- Modelled from the spec: the Review Source Client's pagination loop
(backend source missing): it repeatedly calls the upstream endpoint with an
increasing page cursor, stopping when the upstream signals no more pages,
when the configured page cap is reached (the structural fuel of this
definition embeds that cap), or when an empty page is returned.  Returns
the collected raw entries together with the number of upstream calls made. -/
def paginateAux (fetchPage : Nat → ReviewPage) : Nat → Nat → List RawReview × Nat
  | 0, _ => ([], 0)
  | remaining + 1, pageNo =>
    let p := fetchPage pageNo
    if p.entries.isEmpty then ([], 1)
    else if p.hasMore then
      let rest := paginateAux fetchPage remaining (pageNo + 1)
      (p.entries ++ rest.1, rest.2 + 1)
    else (p.entries, 1)

/-- Modelled from the spec: full retrieval for one product - pagination
starting at page 1 under the configured page cap. -/
def fetchAllReviews (fetchPage : Nat → ReviewPage) (maxPages : Nat) : List RawReview × Nat :=
  paginateAux fetchPage maxPages 1

/-- The pagination loop performs at most `remaining` upstream calls. -/
theorem paginateAux_calls_le (fetchPage : Nat → ReviewPage) :
    ∀ remaining pageNo, (paginateAux fetchPage remaining pageNo).2 ≤ remaining := by
  intro remaining
  induction remaining with
  | zero => intro pageNo; simp [paginateAux]
  | succ n ih =>
    intro pageNo
    simp only [paginateAux]
    split_ifs with h1 h2
    · simp
    · have := ih (pageNo + 1)
      simp
      omega
    · simp

/-- C6: for every possible upstream behavior (any `fetchPage` function,
including one that always signals that more pages are available), the
Review Source Client's pagination makes at most the configured page-cap
many upstream calls, hence terminates within the cap. -/
theorem fetchAllReviews_within_cap (fetchPage : Nat → ReviewPage) (maxPages : Nat) :
    (fetchAllReviews fetchPage maxPages).2 ≤ maxPages :=
  paginateAux_calls_le fetchPage maxPages 1

/-! ## Persistence Sink (spec section 4.6)

The backend source is missing from the snapshot; the batch append and the
response assembly are modelled from the specification. -/

/-- Modelled from the spec: the Persistence Sink's batch append. `writeOk i`
says whether the append of row `i` (0-indexed) succeeds; rows are appended
in sequence order and the loop stops at the first failing write, leaving
the rows already written in place (appends are not rolled back).  Returns
the rows durably written and the index of the failed write, if any. -/
def appendRows (writeOk : Nat → Bool) : List Review → Nat → List Review × Option Nat
  | [], _ => ([], none)
  | r :: rest, i =>
    if writeOk i then
      let out := appendRows writeOk rest (i + 1)
      (r :: out.1, out.2)
    else ([], some i)

/-- Modelled from the spec: a pipeline invocation's terminal artifact - the
full review set and sheet locator returned to the caller, with a partial
persistence failure reported alongside rather than erasing the data. -/
structure PipelineResult where
  data : List Review
  sheet_url : String
  persistFailure : Option Nat
deriving DecidableEq, Repr

/-- Modelled from the spec: persistence followed by response assembly: the
caller's result always carries all retrieved reviews; the second component
is the set of rows durably in the sheet. -/
def persistAndRespond (writeOk : Nat → Bool) (reviews : List Review) (sheetUrl : String) :
    PipelineResult × List Review :=
  let written := appendRows writeOk reviews 0
  ({ data := reviews, sheet_url := sheetUrl, persistFailure := written.2 }, written.1)

/-- Behaviour of the batch append when the write of row `i + k` fails after
`k` successful writes: exactly the first `k` rows are retained. -/
theorem appendRows_partial (writeOk : Nat → Bool) :
    ∀ (rows : List Review) (i k : Nat), k < rows.length →
      (∀ j, j < k → writeOk (i + j) = true) → writeOk (i + k) = false →
      appendRows writeOk rows i = (rows.take k, some (i + k)) := by
  intro rows
  induction rows with
  | nil => intro i k hk; simp at hk
  | cons r rest ih =>
    intro i k hk hok hfail
    cases k with
    | zero =>
      have h0 : writeOk i = false := by simpa using hfail
      simp [appendRows, h0]
    | succ k' =>
      have h0 : writeOk i = true := by simpa using hok 0 (Nat.succ_pos k')
      have hok' : ∀ j, j < k' → writeOk ((i + 1) + j) = true := by
        intro j hj
        have hx := hok (j + 1) (by omega)
        have he : i + (j + 1) = (i + 1) + j := by omega
        rwa [he] at hx
      have hfail' : writeOk ((i + 1) + k') = false := by
        have he : i + (k' + 1) = (i + 1) + k' := by omega
        rwa [he] at hfail
      have hk' : k' < rest.length := by simpa using hk
      have hrec := ih (i + 1) k' hk' hok' hfail'
      simp only [appendRows, h0, if_true, hrec]
      simp [List.take_succ_cons]
      omega

/-- C7: for every batch of reviews in which the write of row `k` fails
(0-indexed: rows 0..k-1 succeed, row `k` fails), the rows already written
are retained - the sheet holds exactly the first `k` rows, with no
rollback - and the data set returned to the caller still contains the
entire batch, the failure being only reported alongside. -/
theorem persistAndRespond_partial_failure (writeOk : Nat → Bool) (reviews : List Review)
    (sheetUrl : String) (k : Nat) (hk : k < reviews.length)
    (hok : ∀ j, j < k → writeOk j = true) (hfail : writeOk k = false) :
    (persistAndRespond writeOk reviews sheetUrl).2 = reviews.take k ∧
      (persistAndRespond writeOk reviews sheetUrl).1.data = reviews ∧
      (persistAndRespond writeOk reviews sheetUrl).1.persistFailure = some k := by
  have h := appendRows_partial writeOk reviews 0 k hk (by simpa using hok) (by simpa using hfail)
  simp [persistAndRespond, h]

/-- Witness for C7: a two-review batch whose second write (row 1) fails. -/
theorem persistAndRespond_partial_failure_witness :
    (1 < ([{ product_name := "p", review_text := "good", rating := 5,
             sentiment_label := SentimentLabel.Positive, sentiment_score := 1/2 },
           { product_name := "p", review_text := "bad", rating := 1,
             sentiment_label := SentimentLabel.Negative, sentiment_score := -(1/2) }] :
            List Review).length) ∧
      (persistAndRespond (fun i => decide (i = 0))
          [{ product_name := "p", review_text := "good", rating := 5,
             sentiment_label := SentimentLabel.Positive, sentiment_score := 1/2 },
           { product_name := "p", review_text := "bad", rating := 1,
             sentiment_label := SentimentLabel.Negative, sentiment_score := -(1/2) }]
          "sheet").1.data =
        [{ product_name := "p", review_text := "good", rating := 5,
           sentiment_label := SentimentLabel.Positive, sentiment_score := 1/2 },
         { product_name := "p", review_text := "bad", rating := 1,
           sentiment_label := SentimentLabel.Negative, sentiment_score := -(1/2) }] := by
  refine ⟨by simp, ?_⟩
  exact (persistAndRespond_partial_failure (fun i => decide (i = 0)) _ "sheet" 1
    (by simp) (by decide) (by decide)).2.1

/-! ## Product Identifier Resolver (spec section 4.1)

The backend source is missing from the snapshot; the resolver is modelled
from the specification and the README: the item id is the contiguous digit
token following the "-i" marker in the product URL (regular-expression
extraction; example: `item-i123456789.html` resolves to `123456789`). -/

/-- Maximal leading run of decimal digits of a character list. -/
def digitsPrefix : List Char → List Char
  | [] => []
  | c :: cs => if c.isDigit then c :: digitsPrefix cs else []

/-- Whether the identifier pattern matches at the very start of the list:
a "-i" marker immediately followed by at least one digit. -/
def tokenHeadB : List Char → Bool
  | c1 :: c2 :: rest => decide (c1 = '-') && decide (c2 = 'i') && !(digitsPrefix rest).isEmpty
  | _ => false

/-- Modelled from the spec: the regular-expression search of the Resolver -
scan left to right and, at the first position where the "-i"-digits pattern
matches, capture the maximal digit run following the marker. -/
def findItemId : List Char → Option (List Char)
  | [] => none
  | c :: cs =>
    if tokenHeadB (c :: cs) then some (digitsPrefix cs.tail) else findItemId cs

/-- Failure mode of the Resolver (spec section 7). -/
inductive ResolveError where
  | invalidReference
deriving DecidableEq, Repr

/-- Modelled from the spec: the Product Identifier Resolver - a pure,
deterministic string operation returning the embedded identifier token, or
failing with `InvalidReferenceError` when no token matches. -/
def resolveProductId (url : String) : Except ResolveError String :=
  match findItemId url.data with
  | some d => Except.ok (String.mk d)
  | none => Except.error ResolveError.invalidReference

/-- Boolean occurrence check of the identifier pattern anywhere in the
list, mirroring the scan structure of `findItemId`. -/
def hasTokenB : List Char → Bool
  | [] => false
  | c :: cs => tokenHeadB (c :: cs) || hasTokenB cs

/-- Declarative statement that a character list contains the identifier
pattern: some decomposition exhibits the "-i" marker followed by a
non-empty digit run. -/
def hasToken (l : List Char) : Prop :=
  ∃ pre d post,
    l = pre ++ '-' :: 'i' :: (d ++ post) ∧ d ≠ [] ∧ d.all Char.isDigit = true

theorem hasToken_nil : ¬ hasToken [] := by
  rintro ⟨pre, d, post, heq, -, -⟩
  simp at heq

theorem hasToken_cons (c : Char) (cs : List Char) :
    hasToken (c :: cs) ↔
      (∃ d post, c :: cs = '-' :: 'i' :: (d ++ post) ∧ d ≠ [] ∧
        d.all Char.isDigit = true) ∨ hasToken cs := by
  constructor
  · rintro ⟨pre, d, post, heq, hd, hdig⟩
    cases pre with
    | nil => exact Or.inl ⟨d, post, by simpa using heq, hd, hdig⟩
    | cons p pre' =>
      right
      have h2 : c = p ∧ cs = pre' ++ '-' :: 'i' :: (d ++ post) := by
        simpa using heq
      exact ⟨pre', d, post, h2.2, hd, hdig⟩
  · rintro (⟨d, post, heq, hd, hdig⟩ | ⟨pre, d, post, heq, hd, hdig⟩)
    · exact ⟨[], d, post, by simpa using heq, hd, hdig⟩
    · exact ⟨c :: pre, d, post, by simp [heq], hd, hdig⟩

/-- The digit run taken by `digitsPrefix` is an initial segment. -/
theorem digitsPrefix_split : ∀ l : List Char, ∃ post, l = digitsPrefix l ++ post := by
  intro l
  induction l with
  | nil => exact ⟨[], rfl⟩
  | cons c cs ih =>
    by_cases hc : c.isDigit
    · obtain ⟨post, hpost⟩ := ih
      exact ⟨post, by simp [digitsPrefix, hc]; exact hpost⟩
    · exact ⟨c :: cs, by simp [digitsPrefix, hc]⟩

/-- Everything captured by `digitsPrefix` is a digit. -/
theorem digitsPrefix_all : ∀ l : List Char, (digitsPrefix l).all Char.isDigit = true := by
  intro l
  induction l with
  | nil => rfl
  | cons c cs ih =>
    by_cases hc : c.isDigit
    · simp [digitsPrefix, hc, ih]
    · simp [digitsPrefix, hc]

/-- `tokenHeadB` decides whether the identifier pattern matches at the
start of the list. -/
theorem tokenHeadB_iff : ∀ l : List Char,
    tokenHeadB l = true ↔
      ∃ d post, l = '-' :: 'i' :: (d ++ post) ∧ d ≠ [] ∧
        d.all Char.isDigit = true := by
  intro l
  match l with
  | [] =>
    simp [tokenHeadB]
  | [c] =>
    simp [tokenHeadB]
  | c1 :: c2 :: rest =>
    simp only [tokenHeadB, Bool.and_eq_true, decide_eq_true_eq,
      Bool.not_eq_true', List.isEmpty_eq_false]
    constructor
    · rintro ⟨⟨h1, h2⟩, h3⟩
      subst h1; subst h2
      obtain ⟨post, hpost⟩ := digitsPrefix_split rest
      exact ⟨digitsPrefix rest, post, by rw [← hpost], h3, digitsPrefix_all rest⟩
    · rintro ⟨d, post, heq, hd, hdig⟩
      have h1 : c1 = '-' ∧ c2 = 'i' ∧ rest = d ++ post := by simpa using heq
      obtain ⟨hc1, hc2, hrest⟩ := h1
      refine ⟨⟨hc1, hc2⟩, ?_⟩
      cases d with
      | nil => exact absurd rfl hd
      | cons dc dtl =>
        have hdc : dc.isDigit = true := by
          have hx := hdig
          simp only [List.all_cons, Bool.and_eq_true] at hx
          exact hx.1
        simp [hrest, digitsPrefix, hdc]

/-- `hasTokenB` decides `hasToken`. -/
theorem hasTokenB_iff : ∀ l : List Char, hasTokenB l = true ↔ hasToken l := by
  intro l
  induction l with
  | nil => simp [hasTokenB, hasToken_nil]
  | cons c cs ih =>
    rw [hasToken_cons]
    simp only [hasTokenB, Bool.or_eq_true, ih, tokenHeadB_iff]

/-- The scan returns nothing exactly when the pattern occurs nowhere. -/
theorem findItemId_none_iff : ∀ l : List Char,
    findItemId l = none ↔ hasTokenB l = false := by
  intro l
  induction l with
  | nil => simp [findItemId, hasTokenB]
  | cons c cs ih =>
    by_cases h : tokenHeadB (c :: cs) = true
    · simp [findItemId, hasTokenB, h]
    · have h' : tokenHeadB (c :: cs) = false := by simpa using h
      simp [findItemId, hasTokenB, h', ih]

/-- The digit run taken by `digitsPrefix` is an initial segment, and it is
maximal: the character following it, if any, is not a digit. -/
theorem digitsPrefix_split_max : ∀ l : List Char,
    ∃ post, l = digitsPrefix l ++ post ∧
      ∀ c, post.head? = some c → c.isDigit = false := by
  intro l
  induction l with
  | nil => exact ⟨[], rfl, by intro c hc; simp at hc⟩
  | cons c cs ih =>
    by_cases hc : c.isDigit
    · obtain ⟨post, hpost, hmax⟩ := ih
      refine ⟨post, ?_, hmax⟩
      simp [digitsPrefix, hc]
      exact hpost
    · refine ⟨c :: cs, by simp [digitsPrefix, hc], ?_⟩
      intro ch hch
      have hcd : c.isDigit = false := by simpa using hc
      have : c = ch := by simpa using hch
      rw [← this]
      exact hcd

/-- When the scan captures a token, that token is genuinely embedded in the
scanned list: a non-empty all-digit run standing immediately after a "-i"
marker, maximal in the sense that the character following it (if any) is
not a digit. -/
theorem findItemId_some_spec : ∀ l d, findItemId l = some d →
    ∃ pre post, l = pre ++ '-' :: 'i' :: (d ++ post) ∧ d ≠ [] ∧
      d.all Char.isDigit = true ∧ ∀ c, post.head? = some c → c.isDigit = false := by
  intro l
  induction l with
  | nil => intro d h; simp [findItemId] at h
  | cons c cs ih =>
    intro d h
    by_cases ht : tokenHeadB (c :: cs) = true
    · simp only [findItemId] at h
      rw [if_pos ht] at h
      cases cs with
      | nil => simp [tokenHeadB] at ht
      | cons c2 rest =>
        simp only [tokenHeadB, Bool.and_eq_true, decide_eq_true_eq, Bool.not_eq_true',
          List.isEmpty_eq_false] at ht
        obtain ⟨⟨hc, hc2⟩, hne⟩ := ht
        subst hc; subst hc2
        have hd : digitsPrefix rest = d := by simpa using h
        obtain ⟨post, hpost, hmax⟩ := digitsPrefix_split_max rest
        refine ⟨[], post, ?_, ?_, ?_, hmax⟩
        · rw [List.nil_append, ← hd, ← hpost]
        · rw [← hd]; exact hne
        · rw [← hd]; exact digitsPrefix_all rest
    · simp only [findItemId] at h
      rw [if_neg ht] at h
      obtain ⟨pre, post, heq, hdne, hdig, hmax⟩ := ih d h
      exact ⟨c :: pre, post, by simp [heq], hdne, hdig, hmax⟩

/-- C5: the Resolver maps the sample product URL to exactly its embedded
identifier token 123456789; for every product URL containing the
identifier pattern it returns the exact embedded token - a non-empty
all-digit run standing in the URL immediately after a "-i" marker, with
nothing cut off (the character after the returned run, if any, is not a
digit); and for every URL it fails with `InvalidReferenceError` if and
only if the URL does not contain the identifier pattern (a "-i" marker
followed by at least one digit). -/
theorem resolveProductId_correct :
    resolveProductId "https://www.daraz.pk/products/item-i123456789.html" =
        Except.ok "123456789" ∧
      (∀ url : String, hasToken url.data →
        ∃ pre d post, url.data = pre ++ '-' :: 'i' :: (d ++ post) ∧ d ≠ [] ∧
          d.all Char.isDigit = true ∧ (∀ c, post.head? = some c → c.isDigit = false) ∧
          resolveProductId url = Except.ok (String.mk d)) ∧
      ∀ url : String,
        (resolveProductId url = Except.error ResolveError.invalidReference ↔
          ¬ hasToken url.data) := by
  refine ⟨rfl, ?_, ?_⟩
  · intro url htok
    have hB : hasTokenB url.data = true := (hasTokenB_iff url.data).mpr htok
    cases hfind : findItemId url.data with
    | none =>
      rw [findItemId_none_iff url.data] at hfind
      rw [hB] at hfind
      exact absurd hfind (by simp)
    | some d =>
      obtain ⟨pre, post, heq, hdne, hdig, hmax⟩ := findItemId_some_spec url.data d hfind
      refine ⟨pre, d, post, heq, hdne, hdig, hmax, ?_⟩
      unfold resolveProductId
      rw [hfind]
  · intro url
    rw [← hasTokenB_iff]
    unfold resolveProductId
    cases hfind : findItemId url.data with
    | none =>
      have := (findItemId_none_iff url.data).mp hfind
      simp [this]
    | some d =>
      have h1 : ¬ (findItemId url.data = none) := by simp [hfind]
      have h2 : ¬ (hasTokenB url.data = false) := fun hf =>
        h1 ((findItemId_none_iff url.data).mpr hf)
      have h3 : hasTokenB url.data = true := by
        cases hx : hasTokenB url.data
        · exact absurd hx h2
        · rfl
      simp [h3]

/-- Witness for C5 at the concrete URL "a-i42xy": the pattern occurs, and
the theorem yields the exact embedded token decomposition and Ok result. -/
theorem resolveProductId_correct_witness :
    hasToken ("a-i42xy").data ∧
      ∃ pre d post, ("a-i42xy").data = pre ++ '-' :: 'i' :: (d ++ post) ∧ d ≠ [] ∧
        d.all Char.isDigit = true ∧ (∀ c, post.head? = some c → c.isDigit = false) ∧
        resolveProductId "a-i42xy" = Except.ok (String.mk d) := by
  have h : hasToken ("a-i42xy").data :=
    ⟨['a'], ['4', '2'], ['x', 'y'], rfl, by decide, by decide⟩
  exact ⟨h, resolveProductId_correct.2.1 "a-i42xy" h⟩
